import Mathlib

/-!
Shallow embedding of the resilient resource-access core of the Ghost MCP
server: the error taxonomy and retry/backoff helpers (source file
src/errors/index.js), the circuit breaker and retry loop (same file), the
LRU resource cache, the posts collection option translation, and the
resource subscription manager (source file src/resources/index.js).

JavaScript numbers that only ever hold non-negative integers are modelled
as Nat; the one real-valued computation (backoff jitter, driven by
Math.random) is modelled over Rat with the random draw passed in as an
explicit parameter in the interval zero-inclusive to one-exclusive.
JavaScript Map objects are modelled as association lists whose keys stay
distinct (every operation used by the source preserves distinctness), and
JavaScript arrays of keys as plain lists.
-/

set_option maxRecDepth 4000

namespace GhostMCP

/-- Truthy-or-default on an optional number, modelling the JavaScript
idiom value-or-default written with the logical-or operator: both an
absent value and the number 0 (falsy) select the default. -/
def jsOr (o : Option Nat) (d : Nat) : Nat :=
  match o with
  | none => d
  | some n => if n = 0 then d else n

/-- Truthy-or-default on an optional string: both an absent value and the
empty string (falsy) select the default. -/
def jsOrStr (o : Option String) (d : String) : String :=
  match o with
  | none => d
  | some s => if s = "" then d else s

/-- Truthiness of an optional string, as tested by a bare if in
JavaScript. -/
def jsTruthyStr (o : Option String) : Bool :=
  match o with
  | none => false
  | some s => s ≠ ""

/-! ## Error taxonomy (src/errors/index.js)

Each error class of the source becomes a constructor function producing a
GhostError record. The class (constructor) of a JavaScript error object is
captured by the kind field; instanceof tests against a class are tests on
kind, with the single subclass relation of the source (GhostAPIError
extends ExternalServiceError) expanded where instanceof
ExternalServiceError is evaluated. -/

/-- Runtime class of an error object, one constructor per error class of
the source module plus one for plain host errors (such as network errors
carrying an errno-style code). -/
inductive ErrKind where
  | validation
  | authentication
  | authorizationK
  | notFound
  | conflict
  | rateLimit
  | externalService
  | ghostAPI
  | mcpProtocol
  | toolExecutionK
  | imageProcessing
  | configuration
  | plain
deriving DecidableEq, Repr

/-- Structured error value: the union of the fields the embedded code
reads on the error classes of src/errors/index.js. -/
structure GhostError where
  kind : ErrKind
  name : String
  message : String
  statusCode : Nat
  code : String
  isOperational : Bool := true
  retryAfter : Nat := 60
  ghostStatusCode : Option Nat := none
  service : Option String := none
  originalError : Option String := none
  resource : Option String := none
  identifier : Option String := none
deriving DecidableEq, Repr

/-- Constructor of NotFoundError: message resource-not-found-identifier,
status 404, code NOT_FOUND. -/
def NotFoundError (resource identifier : String) : GhostError :=
  { kind := .notFound
    name := "NotFoundError"
    message := resource ++ " not found: " ++ identifier
    statusCode := 404
    code := "NOT_FOUND"
    resource := some resource
    identifier := some identifier }

/-- Constructor of RateLimitError: status 429, code RATE_LIMIT_EXCEEDED,
carrying a retry-after hint in seconds (default 60). -/
def RateLimitError (retryAfter : Nat := 60) : GhostError :=
  { kind := .rateLimit
    name := "RateLimitError"
    message := "Rate limit exceeded"
    statusCode := 429
    code := "RATE_LIMIT_EXCEEDED"
    retryAfter := retryAfter }

/-- Constructor of ExternalServiceError: status 502, code
EXTERNAL_SERVICE_ERROR, message prefixed with the failing service name. -/
def ExternalServiceError (service : String) (originalError : String) : GhostError :=
  { kind := .externalService
    name := "ExternalServiceError"
    message := "External service error: " ++ service
    statusCode := 502
    code := "EXTERNAL_SERVICE_ERROR"
    service := some service
    originalError := some originalError }

/-- Constructor of GhostAPIError (subclass of ExternalServiceError with
service fixed to Ghost API), remapping selected upstream status codes to
specific machine codes. -/
def GhostAPIError (originalError : String) (status : Option Nat) : GhostError :=
  let e : GhostError :=
    { ExternalServiceError "Ghost API" originalError with
      kind := .ghostAPI
      name := "GhostAPIError"
      ghostStatusCode := status }
  match status with
  | some 401 => { e with statusCode := 401, code := "GHOST_AUTH_ERROR" }
  | some 404 => { e with statusCode := 404, code := "GHOST_NOT_FOUND" }
  | some 422 => { e with statusCode := 400, code := "GHOST_VALIDATION_ERROR" }
  | some 429 => { e with statusCode := 429, code := "GHOST_RATE_LIMIT" }
  | _ => e

namespace ErrorHandler

/-- Retryability classification of ErrorHandler.isRetryable: rate-limit
errors, external-service errors (including the GhostAPIError subclass,
which already satisfies the instanceof ExternalServiceError test, making
the dedicated GhostAPIError status-list branch of the source unreachable),
and errno-style connection failures are retryable; everything else is
not. -/
def isRetryable (e : GhostError) : Bool :=
  if e.kind = .rateLimit then true
  else if e.kind = .externalService ∨ e.kind = .ghostAPI then true
  else if e.kind = .ghostAPI then
    ([429, 502, 503, 504] : List Nat).contains (e.ghostStatusCode.getD 0)
  else if e.code = "ECONNREFUSED" ∨ e.code = "ETIMEDOUT" ∨ e.code = "ECONNRESET" then true
  else false

/-- Pre-jitter exponential backoff delay of ErrorHandler.getRetryDelay for
non-rate-limit errors: the smaller of base 1000 ms doubled per attempt and
the cap 30000 ms. -/
def getRetryDelayPre (attempt : Nat) : Nat :=
  min (1000 * 2 ^ (attempt - 1)) 30000

/-- Rounding as performed by Math.round on the non-negative values
produced here: floor of the value plus one half. -/
def jsRound (q : ℚ) : ℤ :=
  ⌊q + 1 / 2⌋

/-- Retry delay of ErrorHandler.getRetryDelay: a rate-limit error yields
its retry-after hint converted to milliseconds; otherwise the capped
exponential delay plus a jitter of rand times thirty percent of the delay,
rounded, where rand stands for the Math.random draw. -/
def getRetryDelay (attempt : Nat) (e : GhostError) (rand : ℚ) : ℤ :=
  if e.kind = .rateLimit then
    (e.retryAfter * 1000 : ℤ)
  else
    let delay : ℚ := (getRetryDelayPre attempt : ℚ)
    let jitter : ℚ := rand * (3 / 10) * delay
    jsRound (delay + jitter)

end ErrorHandler

/-! ## Circuit breaker (src/errors/index.js, class CircuitBreaker) -/

/-- Breaker state constant, one of the three string states of the
source. -/
inductive CBState where
  | closed
  | open
  | halfOpen
deriving DecidableEq, Repr

/-- Constructor options of CircuitBreaker, all optional with the
falsy-or-default idiom. -/
structure CBOptions where
  failureThreshold : Option Nat := none
  resetTimeout : Option Nat := none
  monitoringPeriod : Option Nat := none
deriving DecidableEq, Repr

/-- Circuit breaker instance state: configuration plus the mutable fields
state, failureCount, lastFailureTime and nextAttempt. -/
structure CircuitBreaker where
  failureThreshold : Nat
  resetTimeout : Nat
  monitoringPeriod : Nat
  state : CBState
  failureCount : Nat
  lastFailureTime : Option Nat
  nextAttempt : Option Nat
deriving DecidableEq, Repr

namespace CircuitBreaker

/-- Constructor of CircuitBreaker: defaults threshold 5, reset timeout
60000 ms, monitoring period 10000 ms; initial state CLOSED with zero
failures. -/
def new (o : CBOptions) : CircuitBreaker :=
  { failureThreshold := jsOr o.failureThreshold 5
    resetTimeout := jsOr o.resetTimeout 60000
    monitoringPeriod := jsOr o.monitoringPeriod 10000
    state := .closed
    failureCount := 0
    lastFailureTime := none
    nextAttempt := none }

/-- Success handler onSuccess: HALF_OPEN closes; the failure counter and
last failure time are cleared. -/
def onSuccess (cb : CircuitBreaker) : CircuitBreaker :=
  let cb := if cb.state = .halfOpen then { cb with state := .closed } else cb
  { cb with failureCount := 0, lastFailureTime := none }

/-- Failure handler onFailure: increments the failure counter, stamps the
failure time, and on reaching the threshold opens the breaker with
nextAttempt set resetTimeout in the future. -/
def onFailure (cb : CircuitBreaker) (now : Nat) : CircuitBreaker :=
  let cb := { cb with failureCount := cb.failureCount + 1, lastFailureTime := some now }
  if cb.failureThreshold ≤ cb.failureCount then
    { cb with state := .open, nextAttempt := some (now + cb.resetTimeout) }
  else cb

/-- Execution of a guarded call. The wrapped function is represented by
the outcome it would produce if invoked; the returned triple is the call
result (or thrown error), the updated breaker, and whether the wrapped
function was actually invoked. An OPEN breaker whose nextAttempt lies in
the future rejects with a freshly constructed ExternalServiceError and
does not invoke the wrapped function; once nextAttempt has passed the
state moves to HALF_OPEN before executing. -/
def execute {α : Type} (cb : CircuitBreaker) (now : Nat)
    (outcome : Except GhostError α) :
    Except GhostError α × CircuitBreaker × Bool :=
  let gate : Option CircuitBreaker :=
    if cb.state = .open then
      if now < cb.nextAttempt.getD 0 then none
      else some { cb with state := .halfOpen }
    else some cb
  match gate with
  | none =>
      (.error (ExternalServiceError "Circuit breaker is OPEN" "Service temporarily unavailable"),
        cb, false)
  | some cb1 =>
      match outcome with
      | .ok a => (.ok a, cb1.onSuccess, true)
      | .error e => (.error e, cb1.onFailure now, true)

end CircuitBreaker

/-! ## Retry loop (src/errors/index.js, retryWithBackoff)

The wrapped operation is represented by the outcome of its i-th invocation
(1-based). The model returns the final result together with the number of
invocations performed; the inter-attempt sleep and the advisory onRetry
callback of the source affect neither. -/

/-- Placeholder for the JavaScript undefined value thrown by the
unreachable final throw of retryWithBackoff when the loop body never ran
(only possible when maxAttempts is zero). -/
def undefinedThrown : GhostError :=
  { kind := .plain, name := "undefined", message := "undefined",
    statusCode := 0, code := "" }

/-- Loop of retryWithBackoff from a given attempt index: invoke, return on
success, rethrow on the final attempt or a non-retryable error, otherwise
continue with the next attempt. The structural argument remaining counts
the loop iterations the guard still allows, so remaining equals
maxAttempts plus one minus attempt at every reachable call; when it hits
zero the loop exits and the last stored error (the JavaScript undefined
when the body never ran) is thrown. -/
def retryLoop {α : Type} (fn : Nat → Except GhostError α) (maxAttempts : Nat) :
    Nat → Nat → Option GhostError → Except GhostError α × Nat
  | _, 0, lastErr => (.error (lastErr.getD undefinedThrown), 0)
  | attempt, remaining + 1, _ =>
      match fn attempt with
      | .ok a => (.ok a, 1)
      | .error e =>
          if attempt = maxAttempts ∨ ¬ ErrorHandler.isRetryable e then
            (.error e, 1)
          else
            let p := retryLoop fn maxAttempts (attempt + 1) remaining (some e)
            (p.1, p.2 + 1)

/-- Entry point retryWithBackoff: run the loop from attempt 1, with
maxAttempts iterations allowed by the loop guard (default maxAttempts of
the source is 3; the caller passes it explicitly here). -/
def retryWithBackoff {α : Type} (fn : Nat → Except GhostError α)
    (maxAttempts : Nat) : Except GhostError α × Nat :=
  retryLoop fn maxAttempts 1 maxAttempts none

/-! ## LRU cache (src/resources/index.js, class LRUCache)

The JavaScript Map holding the entries is an association list with
distinct keys; the accessOrder array is a plain list of keys,
least-recently-used first. -/

/-- Lookup in an association list, as Map.prototype.get. -/
def mapGet {β : Type} : List (String × β) → String → Option β
  | [], _ => none
  | e :: rest, key => if e.1 = key then some e.2 else mapGet rest key

/-- Insert-or-update in an association list, as Map.prototype.set: an
existing key has its value replaced in place, a new key is appended. -/
def mapSet {β : Type} : List (String × β) → String → β → List (String × β)
  | [], key, v => [(key, v)]
  | e :: rest, key, v => if e.1 = key then (key, v) :: rest else e :: mapSet rest key v

/-- Removal from an association list, as Map.prototype.delete; keys are
distinct throughout, so removing every pair carrying the key equals
removing the single entry. -/
def mapDelete {β : Type} : List (String × β) → String → List (String × β)
  | [], _ => []
  | e :: rest, key => if e.1 = key then mapDelete rest key else e :: mapDelete rest key

/-- Removal of every occurrence of a key from a key list, as the array
filter by inequality used on accessOrder. -/
def removeKey : List String → String → List String
  | [], _ => []
  | k :: rest, key => if k = key then removeKey rest key else k :: removeKey rest key

/-- Keys of an association list. -/
def keysOf {β : Type} (m : List (String × β)) : List String :=
  m.map Prod.fst

/-- Stored cache entry: the cached value and its absolute expiry time. -/
structure CacheEntry (V : Type) where
  value : V
  expiry : Nat
deriving DecidableEq, Repr

/-- LRU cache state: capacity, default time-to-live, entry map and the
access-order key list. -/
structure LRUCache (V : Type) where
  maxSize : Nat
  ttl : Nat
  cache : List (String × CacheEntry V)
  accessOrder : List String
deriving DecidableEq, Repr

namespace LRUCache

/-- Constructor of LRUCache: empty map and empty access order. -/
def new (V : Type) (maxSize : Nat := 100) (ttl : Nat := 300000) : LRUCache V :=
  { maxSize := maxSize, ttl := ttl, cache := [], accessOrder := [] }

/-- Lookup with expiry check, returning the value (if any) and the updated
cache: a missing key leaves the cache unchanged; an expired entry is
deleted as a side effect and treated as absent; a live hit is promoted to
most-recently-used. -/
def get {V : Type} (c : LRUCache V) (now : Nat) (key : String) :
    Option V × LRUCache V :=
  match mapGet c.cache key with
  | none => (none, c)
  | some item =>
      if item.expiry < now then
        (none, { c with cache := mapDelete c.cache key,
                        accessOrder := removeKey c.accessOrder key })
      else
        (some item.value,
          { c with accessOrder := removeKey c.accessOrder key ++ [key] })

/-- Eviction loop of set: while the map is at or above capacity and the
access order is non-empty, shift the oldest key off the access order and
delete it from the map. Returns the map and access order after the
loop. -/
def evictLoop {V : Type} (maxSize : Nat) :
    List (String × CacheEntry V) → List String →
    List (String × CacheEntry V) × List String
  | cache, [] => (cache, [])
  | cache, k :: rest =>
      if maxSize ≤ cache.length then evictLoop maxSize (mapDelete cache k) rest
      else (cache, k :: rest)

/-- Insertion: evict until below capacity, then store the entry with the
per-call time-to-live when given and non-zero (falsy-or-default), and
append the key to the access order as most-recently-used. -/
def set {V : Type} (c : LRUCache V) (now : Nat) (key : String) (value : V)
    (customTTL : Option Nat := none) : LRUCache V :=
  let p := evictLoop c.maxSize c.cache c.accessOrder
  let ttl := jsOr customTTL c.ttl
  { c with cache := mapSet p.1 key { value := value, expiry := now + ttl }
           accessOrder := p.2 ++ [key] }

/-- Invalidation: without a pattern, clear everything; with a pattern
(modelled as the predicate the regular expression decides on a key),
delete every matching map entry and, for each such entry, drop its key
from the access order. A key that matches the pattern but has no live map
entry is kept in the access order, as in the source loop over the map. -/
def invalidate {V : Type} (c : LRUCache V) (pat : Option (String → Bool)) :
    LRUCache V :=
  match pat with
  | none => { c with cache := [], accessOrder := [] }
  | some p =>
      { c with
        cache := c.cache.filter (fun e => ! p e.1)
        accessOrder :=
          c.accessOrder.filter (fun k => ! (p k && (mapGet c.cache k).isSome)) }

/-- One externally observable cache operation, with the clock reading at
the moment of the call where the source reads Date.now(). -/
inductive Op (V : Type) where
  | get (now : Nat) (key : String)
  | set (now : Nat) (key : String) (value : V) (customTTL : Option Nat)
  | invalidate (pat : Option (String → Bool))

/-- State after one operation (the value returned by get is dropped). -/
def applyOp {V : Type} (c : LRUCache V) : Op V → LRUCache V
  | .get now key => (c.get now key).2
  | .set now key value customTTL => c.set now key value customTTL
  | .invalidate pat => c.invalidate pat

/-- State after a sequence of operations. -/
def runOps {V : Type} (c : LRUCache V) (ops : List (Op V)) : LRUCache V :=
  ops.foldl applyOp c

end LRUCache

/-! ## Collection fetch option translation
(src/resources/index.js, ResourceFetcher.fetchPosts)

Query parameters arrive as strings from the URL parser; the numeric ones
are modelled after parseInt, with none standing for an absent or
unparseable value, so that the parseInt-or-default idiom (where a parsed 0
is falsy) becomes jsOr. -/

/-- Query parameters of a posts collection fetch. -/
structure PostsQuery where
  limit : Option Nat := none
  page : Option Nat := none
  «include» : Option String := none
  filter : Option String := none
  order : Option String := none
  status : Option String := none
deriving DecidableEq, Repr

/-- Upstream option shape handed to the content API client. -/
structure PostsOptions where
  limit : Nat
  page : Nat
  «include» : String
  filter : Option String
  order : String
deriving DecidableEq, Repr

namespace ResourceFetcher

/-- Option-building portion of fetchPosts: defaults limit 15, page 1,
include tags-and-authors, order published_at descending; a truthy status
parameter is appended to the filter with the plus (logical AND) separator,
or becomes the filter when the filter option is falsy. -/
def fetchPostsOptions (q : PostsQuery) : PostsOptions :=
  let options : PostsOptions :=
    { limit := jsOr q.limit 15
      page := jsOr q.page 1
      «include» := jsOrStr q.«include» "tags,authors"
      filter := q.filter
      order := jsOrStr q.order "published_at desc" }
  match q.status with
  | none => options
  | some s =>
      if s = "" then options
      else
        { options with
          filter :=
            some (if jsTruthyStr options.filter
                  then options.filter.getD "" ++ "+status:" ++ s
                  else "status:" ++ s) }

end ResourceFetcher

/-! ## Subscription manager
(src/resources/index.js, class ResourceSubscriptionManager)

The manager state separates the heap of subscription objects (which the
polling closures capture and which therefore outlive removal from the
registry) from the registry map keyed by subscription id. Callback
invocations are recorded as events tagged with the id of the subscription
object whose callback ran. A poll cycle is split at its await point: a
tick of a live timer (or the initial call in startPolling) starts an
in-flight fetch; a separate completion step delivers the fetch result and
runs the remainder of the poll function, which updates the captured
object and invokes its callback without consulting the registry. -/

/-- Heap record of one subscription object: its URI and last observed
value (the callback is identified by the record's id in the heap). -/
structure SubObj (V : Type) where
  uri : String
  lastValue : Option V
deriving DecidableEq, Repr

/-- Options accepted by subscribe. -/
structure SubOptions where
  enablePolling : Bool := false
  pollingInterval : Option Nat := none
deriving DecidableEq, Repr

/-- Callback invocation event: an update with the fetched data, or an
error report with the failure message. -/
inductive PollEvent (V : Type) where
  | update (uri : String) (data : V)
  | errorEv (uri : String) (message : String)
deriving DecidableEq, Repr

/-- Subscription manager state: object heap, registry key set, active
poll timers with their interval, in-flight poll fetches, and the log of
callback invocations. -/
structure SubMgr (V : Type) where
  objects : List (String × SubObj V) := []
  registered : List String := []
  pollingIntervals : List (String × Nat) := []
  inFlight : List String := []
  events : List (String × PollEvent V) := []
deriving DecidableEq, Repr

namespace SubMgr

/-- Registration by subscribe with the fresh id passed in (the source
generates it from the clock and a random suffix): the subscription object
is created with lastValue null and recorded; when polling is enabled,
startPolling immediately runs one poll cycle (an in-flight fetch) and
installs a recurring timer whose interval is the requested
pollingInterval or, when absent or zero, the default 30000 ms. -/
def subscribe {V : Type} (m : SubMgr V) (id uri : String) (opts : SubOptions) :
    SubMgr V × String :=
  let interval := jsOr opts.pollingInterval 30000
  let m1 := { m with objects := mapSet m.objects id { uri := uri, lastValue := none }
                     registered := m.registered ++ [id] }
  let m2 :=
    if opts.enablePolling then
      { m1 with inFlight := m1.inFlight ++ [id]
                pollingIntervals := mapSet m1.pollingIntervals id interval }
    else m1
  (m2, id)

/-- Removal by unsubscribe: an unknown id throws NotFoundError and the
state is untouched; otherwise the timer (if any) is cleared and the id is
removed from the registry. In-flight fetches and the object heap are not
touched. -/
def unsubscribe {V : Type} (m : SubMgr V) (id : String) :
    Except GhostError (SubMgr V) :=
  if id ∈ m.registered then
    .ok { m with pollingIntervals := mapDelete m.pollingIntervals id
                 registered := removeKey m.registered id }
  else
    .error (NotFoundError "Subscription" id)

/-- Firing of the recurring timer of a subscription: a timer that exists
starts one poll cycle (an in-flight fetch); a cancelled or never-created
timer cannot fire, so the state is unchanged. -/
def tick {V : Type} (m : SubMgr V) (id : String) : SubMgr V :=
  match mapGet m.pollingIntervals id with
  | some _ => { m with inFlight := m.inFlight ++ [id] }
  | none => m

/-- Settling of the in-flight fetch at a given position with the fetch
outcome: the poll function resumes on the captured subscription object; a
successful value differing from lastValue (the stringified comparison of
the source) updates lastValue and invokes the callback with an update
event; an equal value invokes nothing; a failure invokes the callback
with an error event, leaving lastValue alone. No registry check guards
the callback invocation. -/
def completeFetch {V : Type} [DecidableEq V] (m : SubMgr V) (idx : Nat)
    (result : Except String V) : SubMgr V :=
  match m.inFlight[idx]? with
  | none => m
  | some id =>
      let m1 := { m with inFlight := m.inFlight.eraseIdx idx }
      match mapGet m.objects id with
      | none => m1
      | some obj =>
          match result with
          | .ok v =>
              if some v ≠ obj.lastValue then
                { m1 with
                  objects := mapSet m1.objects id { obj with lastValue := some v }
                  events := m1.events ++ [(id, PollEvent.update obj.uri v)] }
              else m1
          | .error msg =>
              { m1 with events := m1.events ++ [(id, PollEvent.errorEv obj.uri msg)] }

/-- One scheduler step after the subscription phase: a timer firing or a
fetch completion (no new subscribe). -/
inductive Step (V : Type) where
  | tick (id : String)
  | complete (idx : Nat) (result : Except String V)
deriving Repr

/-- State after one scheduler step. -/
def applyStep {V : Type} [DecidableEq V] (m : SubMgr V) : Step V → SubMgr V
  | .tick id => m.tick id
  | .complete idx result => m.completeFetch idx result

/-- State after a sequence of scheduler steps. -/
def runSteps {V : Type} [DecidableEq V] (m : SubMgr V) (steps : List (Step V)) :
    SubMgr V :=
  steps.foldl applyStep m

end SubMgr

/-! ## Helper lemmas on the map and key-list operations -/

theorem mem_removeKey {l : List String} {key k : String} :
    k ∈ removeKey l key ↔ k ∈ l ∧ k ≠ key := by
  induction l with
  | nil => simp [removeKey]
  | cons k0 rest ih =>
      simp only [removeKey]
      by_cases h : k0 = key
      · rw [if_pos h]
        rw [ih]
        subst h
        constructor
        · rintro ⟨h1, h2⟩
          exact ⟨List.mem_cons_of_mem _ h1, h2⟩
        · rintro ⟨h1, h2⟩
          rcases List.mem_cons.mp h1 with rfl | h1
          · exact absurd rfl h2
          · exact ⟨h1, h2⟩
      · rw [if_neg h]
        simp only [List.mem_cons, ih]
        constructor
        · rintro (rfl | ⟨h1, h2⟩)
          · exact ⟨Or.inl rfl, h⟩
          · exact ⟨Or.inr h1, h2⟩
        · rintro ⟨rfl | h1, h2⟩
          · exact Or.inl rfl
          · exact Or.inr ⟨h1, h2⟩

theorem removeKey_sublist (l : List String) (key : String) :
    (removeKey l key).Sublist l := by
  induction l with
  | nil => simp [removeKey]
  | cons k0 rest ih =>
      by_cases h : k0 = key
      · simp only [removeKey, if_pos h]
        exact ih.cons k0
      · simp only [removeKey, if_neg h]
        exact ih.cons₂ k0

theorem keysOf_mapDelete {β : Type} (m : List (String × β)) (key : String) :
    keysOf (mapDelete m key) = removeKey (keysOf m) key := by
  induction m with
  | nil => rfl
  | cons e rest ih =>
      simp only [mapDelete, keysOf, List.map_cons, removeKey]
      simp only [keysOf] at ih
      by_cases h : e.1 = key
      · rw [if_pos h, if_pos h, ih]
      · rw [if_neg h, if_neg h]
        simp [ih]

theorem mapDelete_sublist {β : Type} (m : List (String × β)) (key : String) :
    (mapDelete m key).Sublist m := by
  induction m with
  | nil => simp [mapDelete]
  | cons e rest ih =>
      by_cases h : e.1 = key
      · simp only [mapDelete, if_pos h]
        exact ih.cons e
      · simp only [mapDelete, if_neg h]
        exact ih.cons₂ e

theorem mem_keysOf_mapSet {β : Type} {m : List (String × β)} {key k : String} {v : β} :
    k ∈ keysOf (mapSet m key v) → k ∈ keysOf m ∨ k = key := by
  induction m with
  | nil =>
      simp [mapSet, keysOf]
  | cons e rest ih =>
      by_cases h : e.1 = key
      · simp only [mapSet, if_pos h, keysOf, List.map_cons, List.mem_cons]
        rintro (rfl | hk)
        · exact Or.inr rfl
        · exact Or.inl (Or.inr hk)
      · simp only [mapSet, if_neg h, keysOf, List.map_cons, List.mem_cons]
        rintro (rfl | hk)
        · exact Or.inl (Or.inl rfl)
        · rcases ih hk with h1 | h1
          · exact Or.inl (Or.inr h1)
          · exact Or.inr h1

theorem length_mapSet_le {β : Type} (m : List (String × β)) (key : String) (v : β) :
    (mapSet m key v).length ≤ m.length + 1 := by
  induction m with
  | nil => simp [mapSet]
  | cons e rest ih =>
      by_cases h : e.1 = key
      · simp [mapSet, h]
      · simp only [mapSet, if_neg h, List.length_cons]
        omega

theorem nodup_keysOf_mapSet {β : Type} {m : List (String × β)} (key : String) (v : β)
    (h : (keysOf m).Nodup) : (keysOf (mapSet m key v)).Nodup := by
  induction m with
  | nil => simp [mapSet, keysOf]
  | cons e rest ih =>
      simp only [keysOf, List.map_cons, List.nodup_cons] at h
      simp only [mapSet]
      by_cases he : e.1 = key
      · rw [if_pos he]
        simp only [keysOf, List.map_cons, List.nodup_cons]
        rw [← he]
        exact h
      · rw [if_neg he]
        simp only [keysOf, List.map_cons, List.nodup_cons]
        refine ⟨fun hmem => ?_, ih h.2⟩
        rcases mem_keysOf_mapSet hmem with h1 | h1
        · exact h.1 h1
        · exact he h1

theorem mapGet_mapSet_self {β : Type} (m : List (String × β)) (key : String) (v : β) :
    mapGet (mapSet m key v) key = some v := by
  induction m with
  | nil => simp [mapSet, mapGet]
  | cons e rest ih =>
      by_cases h : e.1 = key
      · simp [mapSet, mapGet, h]
      · simp [mapSet, mapGet, h, ih]

theorem mapGet_mapDelete_self {β : Type} (m : List (String × β)) (key : String) :
    mapGet (mapDelete m key) key = none := by
  induction m with
  | nil => rfl
  | cons e rest ih =>
      by_cases h : e.1 = key
      · simp [mapDelete, h, ih]
      · simp [mapDelete, mapGet, h, ih]

/-! ## Invariant of the LRU cache

Reachable cache states keep the map keys distinct, keep every stored key
present in the access order (possibly more than once, possibly alongside
stale keys), and keep the entry count within capacity. -/

namespace LRUCache

/-- Invariant on a cache state: distinct map keys, every stored key listed
in the access order, entry count within capacity. -/
def Inv {V : Type} (c : LRUCache V) : Prop :=
  (keysOf c.cache).Nodup ∧ keysOf c.cache ⊆ c.accessOrder ∧ c.cache.length ≤ c.maxSize

theorem evictLoop_subset {V : Type} (maxSize : Nat) :
    ∀ (order : List String) (cache : List (String × CacheEntry V)),
      keysOf cache ⊆ order →
      keysOf (evictLoop maxSize cache order).1 ⊆ (evictLoop maxSize cache order).2 := by
  intro order
  induction order with
  | nil =>
      intro cache h
      simpa [evictLoop] using h
  | cons k0 rest ih =>
      intro cache h
      simp only [evictLoop]
      by_cases hlen : maxSize ≤ cache.length
      · rw [if_pos hlen]
        refine ih (mapDelete cache k0) ?_
        intro k hk
        rw [keysOf_mapDelete, mem_removeKey] at hk
        rcases List.mem_cons.mp (h hk.1) with rfl | hmem
        · exact absurd rfl hk.2
        · exact hmem
      · rw [if_neg hlen]
        exact h

theorem evictLoop_length_lt {V : Type} (maxSize : Nat) (hms : 1 ≤ maxSize) :
    ∀ (order : List String) (cache : List (String × CacheEntry V)),
      keysOf cache ⊆ order →
      (evictLoop maxSize cache order).1.length < maxSize := by
  intro order
  induction order with
  | nil =>
      intro cache h
      simp only [evictLoop]
      have hempty : cache = [] := by
        cases cache with
        | nil => rfl
        | cons e rest =>
            exact absurd (h (by simp [keysOf])) (List.not_mem_nil e.1)
      simp [hempty]
      omega
  | cons k0 rest ih =>
      intro cache h
      simp only [evictLoop]
      by_cases hlen : maxSize ≤ cache.length
      · rw [if_pos hlen]
        refine ih (mapDelete cache k0) ?_
        intro k hk
        rw [keysOf_mapDelete, mem_removeKey] at hk
        rcases List.mem_cons.mp (h hk.1) with rfl | hmem
        · exact absurd rfl hk.2
        · exact hmem
      · rw [if_neg hlen]
        show cache.length < maxSize
        omega

theorem evictLoop_nodup {V : Type} (maxSize : Nat) :
    ∀ (order : List String) (cache : List (String × CacheEntry V)),
      (keysOf cache).Nodup → (keysOf (evictLoop maxSize cache order).1).Nodup := by
  intro order
  induction order with
  | nil =>
      intro cache h
      simpa [evictLoop] using h
  | cons k0 rest ih =>
      intro cache h
      simp only [evictLoop]
      by_cases hlen : maxSize ≤ cache.length
      · rw [if_pos hlen]
        refine ih (mapDelete cache k0) ?_
        exact h.sublist ((mapDelete_sublist cache k0).map Prod.fst)
      · rw [if_neg hlen]
        exact h

theorem inv_set {V : Type} (c : LRUCache V) (now : Nat) (key : String) (value : V)
    (customTTL : Option Nat) (hinv : Inv c) (hms : 1 ≤ c.maxSize) :
    Inv (c.set now key value customTTL) := by
  obtain ⟨hnd, hsub, _hlen⟩ := hinv
  refine ⟨?_, ?_, ?_⟩
  · exact nodup_keysOf_mapSet key _ (evictLoop_nodup c.maxSize c.accessOrder c.cache hnd)
  · intro k hk
    simp only [set] at hk ⊢
    rcases mem_keysOf_mapSet hk with h1 | h1
    · exact List.mem_append_left _ (evictLoop_subset c.maxSize c.accessOrder c.cache hsub h1)
    · subst h1
      exact List.mem_append_right _ (List.mem_singleton.mpr rfl)
  · simp only [set]
    have h1 := evictLoop_length_lt c.maxSize hms c.accessOrder c.cache hsub
    have h2 := length_mapSet_le (evictLoop c.maxSize c.cache c.accessOrder).1 key
      { value := value, expiry := now + jsOr customTTL c.ttl }
    omega

theorem subset_set {V : Type} (c : LRUCache V) (now : Nat) (key : String) (value : V)
    (customTTL : Option Nat) (hsub : keysOf c.cache ⊆ c.accessOrder) :
    keysOf (c.set now key value customTTL).cache ⊆ (c.set now key value customTTL).accessOrder := by
  intro k hk
  simp only [set] at hk ⊢
  rcases mem_keysOf_mapSet hk with h1 | h1
  · exact List.mem_append_left _ (evictLoop_subset c.maxSize c.accessOrder c.cache hsub h1)
  · subst h1
    exact List.mem_append_right _ (List.mem_singleton.mpr rfl)

theorem subset_get {V : Type} (c : LRUCache V) (now : Nat) (key : String)
    (hsub : keysOf c.cache ⊆ c.accessOrder) :
    keysOf (c.get now key).2.cache ⊆ (c.get now key).2.accessOrder := by
  cases hm : mapGet c.cache key with
  | none =>
      simp only [get, hm]
      exact hsub
  | some item =>
      simp only [get, hm]
      by_cases hexp : item.expiry < now
      · rw [if_pos hexp]
        intro k hk
        rw [keysOf_mapDelete, mem_removeKey] at hk
        exact mem_removeKey.mpr ⟨hsub hk.1, hk.2⟩
      · rw [if_neg hexp]
        intro k hk
        by_cases hkey : k = key
        · subst hkey
          exact List.mem_append_right _ (List.mem_singleton.mpr rfl)
        · exact List.mem_append_left _ (mem_removeKey.mpr ⟨hsub hk, hkey⟩)

theorem subset_invalidate {V : Type} (c : LRUCache V) (pat : Option (String → Bool))
    (hsub : keysOf c.cache ⊆ c.accessOrder) :
    keysOf (c.invalidate pat).cache ⊆ (c.invalidate pat).accessOrder := by
  cases pat with
  | none => simp [invalidate, keysOf]
  | some p =>
      simp only [invalidate]
      intro k hk
      rcases List.mem_map.mp hk with ⟨e, he, rfl⟩
      have h1 := List.mem_filter.mp he
      have hp : p e.1 = false := by
        have := h1.2
        simpa using this
      refine List.mem_filter.mpr ⟨hsub (List.mem_map.mpr ⟨e, h1.1, rfl⟩), ?_⟩
      simp [hp]

theorem inv_get {V : Type} (c : LRUCache V) (now : Nat) (key : String) (hinv : Inv c) :
    Inv (c.get now key).2 := by
  obtain ⟨hnd, hsub, hlen⟩ := hinv
  refine ⟨?_, subset_get c now key hsub, ?_⟩
  · cases hm : mapGet c.cache key with
    | none => simpa [get, hm] using hnd
    | some item =>
        simp only [get, hm]
        by_cases hexp : item.expiry < now
        · rw [if_pos hexp]
          exact hnd.sublist ((mapDelete_sublist c.cache key).map Prod.fst)
        · rw [if_neg hexp]
          exact hnd
  · cases hm : mapGet c.cache key with
    | none => simpa [get, hm] using hlen
    | some item =>
        simp only [get, hm]
        by_cases hexp : item.expiry < now
        · rw [if_pos hexp]
          exact le_trans ((mapDelete_sublist c.cache key).length_le) hlen
        · rw [if_neg hexp]
          exact hlen

theorem inv_invalidate {V : Type} (c : LRUCache V) (pat : Option (String → Bool))
    (hinv : Inv c) : Inv (c.invalidate pat) := by
  obtain ⟨hnd, hsub, hlen⟩ := hinv
  refine ⟨?_, subset_invalidate c pat hsub, ?_⟩
  · cases pat with
    | none => simp [invalidate, keysOf]
    | some p =>
        simp only [invalidate]
        exact hnd.sublist ((List.filter_sublist c.cache).map Prod.fst)
  · cases pat with
    | none => simp [invalidate]
    | some p =>
        simp only [invalidate]
        exact le_trans (List.length_filter_le _ c.cache) hlen

theorem applyOp_maxSize {V : Type} (c : LRUCache V) (op : Op V) :
    (c.applyOp op).maxSize = c.maxSize := by
  cases op with
  | get now key =>
      cases hm : mapGet c.cache key with
      | none => simp [applyOp, get, hm]
      | some item =>
          simp only [applyOp, get, hm]
          by_cases hexp : item.expiry < now
          · rw [if_pos hexp]
          · rw [if_neg hexp]
  | set now key value customTTL => rfl
  | invalidate pat => cases pat <;> rfl

theorem inv_applyOp {V : Type} (c : LRUCache V) (op : Op V) (hinv : Inv c)
    (hms : 1 ≤ c.maxSize) : Inv (c.applyOp op) := by
  cases op with
  | get now key => exact inv_get c now key hinv
  | set now key value customTTL => exact inv_set c now key value customTTL hinv hms
  | invalidate pat => exact inv_invalidate c pat hinv

theorem subset_applyOp {V : Type} (c : LRUCache V) (op : Op V)
    (hsub : keysOf c.cache ⊆ c.accessOrder) :
    keysOf (c.applyOp op).cache ⊆ (c.applyOp op).accessOrder := by
  cases op with
  | get now key => exact subset_get c now key hsub
  | set now key value customTTL => exact subset_set c now key value customTTL hsub
  | invalidate pat => exact subset_invalidate c pat hsub

theorem runOps_inv {V : Type} :
    ∀ (ops : List (Op V)) (c : LRUCache V), Inv c → 1 ≤ c.maxSize →
      Inv (c.runOps ops) ∧ (c.runOps ops).maxSize = c.maxSize := by
  intro ops
  induction ops with
  | nil =>
      intro c hinv _
      exact ⟨hinv, rfl⟩
  | cons op rest ih =>
      intro c hinv hms
      have hstep := inv_applyOp c op hinv hms
      have hm := applyOp_maxSize c op
      have := ih (c.applyOp op) hstep (by omega)
      refine ⟨this.1, ?_⟩
      show ((c.applyOp op).runOps rest).maxSize = c.maxSize
      rw [this.2, hm]

end LRUCache

/-! ## Helper lemmas on the retry loop and the subscription manager -/

theorem retryLoop_error_step {α : Type} (errs : Nat → GhostError)
    (maxAttempts attempt remaining : Nat) (lastErr : Option GhostError) :
    retryLoop (fun i => (Except.error (errs i) : Except GhostError α)) maxAttempts
        attempt (remaining + 1) lastErr
      = if attempt = maxAttempts ∨ ¬ ErrorHandler.isRetryable (errs attempt) then
          (Except.error (errs attempt), 1)
        else
          ((retryLoop (fun i => (Except.error (errs i) : Except GhostError α)) maxAttempts
              (attempt + 1) remaining (some (errs attempt))).1,
            (retryLoop (fun i => (Except.error (errs i) : Except GhostError α)) maxAttempts
              (attempt + 1) remaining (some (errs attempt))).2 + 1) := rfl

theorem retryLoop_all_fail {α : Type} (errs : Nat → GhostError) (maxAttempts : Nat)
    (h2 : ∀ i, ErrorHandler.isRetryable (errs i) = true) :
    ∀ (n attempt : Nat) (lastErr : Option GhostError), attempt + n = maxAttempts →
      retryLoop (fun i => (Except.error (errs i) : Except GhostError α)) maxAttempts
          attempt (n + 1) lastErr
        = (Except.error (errs maxAttempts), n + 1) := by
  intro n
  induction n with
  | zero =>
      intro attempt lastErr h
      have ha : attempt = maxAttempts := by omega
      rw [retryLoop_error_step, if_pos (Or.inl ha), ha]
  | succ n ih =>
      intro attempt lastErr h
      have hretry : ErrorHandler.isRetryable (errs attempt) = true := h2 attempt
      have hne : ¬ (attempt = maxAttempts ∨ ¬ ErrorHandler.isRetryable (errs attempt)) := by
        simp only [hretry, not_true, or_false]
        omega
      rw [retryLoop_error_step, if_neg hne,
        ih (attempt + 1) (some (errs attempt)) (by omega)]

namespace SubMgr

theorem tick_no_timer {V : Type} (m : SubMgr V) (id : String)
    (h : mapGet m.pollingIntervals id = none) : m.tick id = m := by
  simp [tick, h]

theorem applyStep_pollingIntervals {V : Type} [DecidableEq V] (m : SubMgr V)
    (s : Step V) : (m.applyStep s).pollingIntervals = m.pollingIntervals := by
  cases s with
  | tick id =>
      cases hT : mapGet m.pollingIntervals id with
      | none => simp [applyStep, tick, hT]
      | some interval => simp [applyStep, tick, hT]
  | complete idx result =>
      cases hF : m.inFlight[idx]? with
      | none => simp [applyStep, completeFetch, hF]
      | some id =>
          cases hO : mapGet m.objects id with
          | none => simp [applyStep, completeFetch, hF, hO]
          | some obj =>
              cases result with
              | ok v =>
                  simp only [applyStep, completeFetch, hF, hO]
                  split <;> rfl
              | error msg => simp [applyStep, completeFetch, hF, hO]

theorem runSteps_pollingIntervals {V : Type} [DecidableEq V] :
    ∀ (steps : List (Step V)) (m : SubMgr V),
      (m.runSteps steps).pollingIntervals = m.pollingIntervals := by
  intro steps
  induction steps with
  | nil => intro m; rfl
  | cons s rest ih =>
      intro m
      show ((m.applyStep s).runSteps rest).pollingIntervals = m.pollingIntervals
      rw [ih (m.applyStep s), applyStep_pollingIntervals]

end SubMgr

/-! ## Claim theorems -/

/-- C1 counterexample: the error thrown by an OPEN circuit breaker is an
ExternalServiceError whose kind and machine-readable code
(EXTERNAL_SERVICE_ERROR) coincide with those of a real upstream
external-service failure, so the claimed distinct CircuitOpen kind does
not exist: at a breaker opened by one failure with threshold 1, the
rejected call at time 50 throws an error of the same kind and code as the
upstream failure that opened it. -/
theorem circuit_open_error_shares_upstream_kind :
    ((((CircuitBreaker.new { failureThreshold := some 1 }).execute 40
          (Except.error (ExternalServiceError "Ghost API" "boom") : Except GhostError Nat)).2.1.execute
        50 (Except.ok 0 : Except GhostError Nat)).1
      = Except.error (ExternalServiceError "Circuit breaker is OPEN" "Service temporarily unavailable"))
    ∧ (ExternalServiceError "Circuit breaker is OPEN" "Service temporarily unavailable").kind
        = (ExternalServiceError "Ghost API" "boom").kind
    ∧ (ExternalServiceError "Circuit breaker is OPEN" "Service temporarily unavailable").code
        = (ExternalServiceError "Ghost API" "boom").code :=
  ⟨rfl, rfl, rfl⟩

/-- C1 (amended): every call rejected by an OPEN breaker before
nextAttempt throws a freshly constructed ExternalServiceError — the same
kind and code (EXTERNAL_SERVICE_ERROR, status 502) as real upstream
failures, not a distinct CircuitOpen kind — whose fixed service field
"Circuit breaker is OPEN" and message are the only distinguishing marks;
the rejection value is this constant regardless of the error that opened
the breaker, so it is never a reuse of the last real failure, and the
wrapped function is not invoked. -/
theorem open_breaker_rejects_with_external_service_error {α : Type}
    (cb : CircuitBreaker) (now : Nat) (outcome : Except GhostError α)
    (h1 : cb.state = .open) (h2 : now < cb.nextAttempt.getD 0) :
    cb.execute now outcome
      = (.error (ExternalServiceError "Circuit breaker is OPEN" "Service temporarily unavailable"),
          cb, false)
    ∧ (ExternalServiceError "Circuit breaker is OPEN" "Service temporarily unavailable").kind
        = ErrKind.externalService
    ∧ (ExternalServiceError "Circuit breaker is OPEN" "Service temporarily unavailable").code
        = "EXTERNAL_SERVICE_ERROR"
    ∧ (ExternalServiceError "Circuit breaker is OPEN" "Service temporarily unavailable").statusCode
        = 502
    ∧ (ExternalServiceError "Circuit breaker is OPEN" "Service temporarily unavailable").service
        = some "Circuit breaker is OPEN" := by
  refine ⟨?_, rfl, rfl, rfl, rfl⟩
  simp [CircuitBreaker.execute, h1, h2]

/-- Witness for the amended C1 theorem at a concrete open breaker. -/
theorem open_breaker_rejects_with_external_service_error_witness :
    CircuitBreaker.execute
        { failureThreshold := 5, resetTimeout := 60000, monitoringPeriod := 10000,
          state := .open, failureCount := 5, lastFailureTime := some 40,
          nextAttempt := some 100 } 50 (Except.ok (0 : Nat))
      = (.error (ExternalServiceError "Circuit breaker is OPEN" "Service temporarily unavailable"),
          { failureThreshold := 5, resetTimeout := 60000, monitoringPeriod := 10000,
            state := .open, failureCount := 5, lastFailureTime := some 40,
            nextAttempt := some 100 }, false) :=
  (open_breaker_rejects_with_external_service_error
    { failureThreshold := 5, resetTimeout := 60000, monitoringPeriod := 10000,
      state := .open, failureCount := 5, lastFailureTime := some 40,
      nextAttempt := some 100 } 50 (Except.ok 0) rfl (by decide)).1

/-- C2: with failureThreshold 3 (and a positive reset timeout), a breaker
starting CLOSED reaches OPEN after three consecutive failed calls, with
nextAttempt set to the third failure time plus the reset timeout, and
every call made while now is before nextAttempt throws the synthetic
unavailable error without invoking the wrapped function and without
changing the breaker. -/
theorem breaker_opens_at_threshold_and_rejects {α : Type} (rt t1 t2 t3 : Nat)
    (hrt : 0 < rt) (e1 e2 e3 : GhostError) (cb1 cb2 cb3 : CircuitBreaker)
    (h1 : cb1 = ((CircuitBreaker.new { failureThreshold := some 3, resetTimeout := some rt }).execute
        t1 (Except.error e1 : Except GhostError α)).2.1)
    (h2 : cb2 = (cb1.execute t2 (Except.error e2 : Except GhostError α)).2.1)
    (h3 : cb3 = (cb2.execute t3 (Except.error e3 : Except GhostError α)).2.1) :
    cb3.state = .open ∧ cb3.nextAttempt = some (t3 + rt) ∧
    ∀ (now : Nat) (outcome : Except GhostError α), now < t3 + rt →
      cb3.execute now outcome
        = (.error (ExternalServiceError "Circuit breaker is OPEN" "Service temporarily unavailable"),
            cb3, false) := by
  have hrt0 : rt ≠ 0 := by omega
  have hnew : CircuitBreaker.new { failureThreshold := some 3, resetTimeout := some rt }
      = { failureThreshold := 3, resetTimeout := rt, monitoringPeriod := 10000,
          state := .closed, failureCount := 0, lastFailureTime := none, nextAttempt := none } := by
    simp [CircuitBreaker.new, jsOr, hrt0]
  rw [hnew] at h1
  have hcb1 : cb1
      = { failureThreshold := 3, resetTimeout := rt, monitoringPeriod := 10000,
          state := .closed, failureCount := 1, lastFailureTime := some t1, nextAttempt := none } := by
    rw [h1]
    simp [CircuitBreaker.execute, CircuitBreaker.onFailure]
  rw [hcb1] at h2
  have hcb2 : cb2
      = { failureThreshold := 3, resetTimeout := rt, monitoringPeriod := 10000,
          state := .closed, failureCount := 2, lastFailureTime := some t2, nextAttempt := none } := by
    rw [h2]
    simp [CircuitBreaker.execute, CircuitBreaker.onFailure]
  rw [hcb2] at h3
  have hcb3 : cb3
      = { failureThreshold := 3, resetTimeout := rt, monitoringPeriod := 10000,
          state := .open, failureCount := 3, lastFailureTime := some t3,
          nextAttempt := some (t3 + rt) } := by
    rw [h3]
    simp [CircuitBreaker.execute, CircuitBreaker.onFailure]
  subst hcb3
  refine ⟨rfl, rfl, ?_⟩
  intro now outcome hnow
  simp [CircuitBreaker.execute, hnow]

/-- Witness for the C2 theorem at a concrete breaker run. -/
theorem breaker_opens_at_threshold_and_rejects_witness :
    CircuitBreaker.execute
        { failureThreshold := 3, resetTimeout := 60000, monitoringPeriod := 10000,
          state := .open, failureCount := 3, lastFailureTime := some 2,
          nextAttempt := some 60002 } 3 (Except.ok (7 : Nat))
      = (.error (ExternalServiceError "Circuit breaker is OPEN" "Service temporarily unavailable"),
          { failureThreshold := 3, resetTimeout := 60000, monitoringPeriod := 10000,
            state := .open, failureCount := 3, lastFailureTime := some 2,
            nextAttempt := some 60002 }, false) :=
  (breaker_opens_at_threshold_and_rejects 60000 0 1 2 (by decide)
      (ExternalServiceError "Ghost API" "x") (ExternalServiceError "Ghost API" "x")
      (ExternalServiceError "Ghost API" "x") _ _ _ rfl rfl rfl).2.2 3 (Except.ok 7) (by decide)

/-- C3: an operation failing on every invocation with a retryable error
is invoked exactly maxAttempts times by retryWithBackoff (for any
maxAttempts of at least 1) and the error of the final attempt is then
rethrown: the returned pair is the final error together with the exact
invocation count maxAttempts. -/
theorem retryWithBackoff_exhausts_attempts_and_rethrows {α : Type}
    (errs : Nat → GhostError) (maxAttempts : Nat) (h1 : 1 ≤ maxAttempts)
    (h2 : ∀ i, ErrorHandler.isRetryable (errs i) = true) :
    retryWithBackoff (fun i => (Except.error (errs i) : Except GhostError α)) maxAttempts
      = (Except.error (errs maxAttempts), maxAttempts) := by
  unfold retryWithBackoff
  obtain ⟨n, rfl⟩ : ∃ n, maxAttempts = n + 1 := ⟨maxAttempts - 1, by omega⟩
  exact retryLoop_all_fail errs (n + 1) h2 n 1 none (by omega)

/-- Witness for the C3 theorem: a constantly failing retryable operation
with maxAttempts 2 is invoked exactly twice and the error propagates. -/
theorem retryWithBackoff_exhausts_attempts_and_rethrows_witness :
    retryWithBackoff
        (fun _ => (Except.error (ExternalServiceError "Ghost API" "boom") : Except GhostError Nat)) 2
      = (Except.error (ExternalServiceError "Ghost API" "boom"), 2) :=
  retryWithBackoff_exhausts_attempts_and_rethrows
    (fun _ => ExternalServiceError "Ghost API" "boom") 2 (by decide) (fun _ => rfl)

/-- C4: for every sequence of get, set and invalidate operations on a
cache of positive capacity, the number of stored entries is at most
maxSize after every operation; moreover, from any state whose stored keys
all appear in the access order, the eviction loop of set brings the entry
count strictly below maxSize before the insertion happens. -/
theorem cache_size_bounded_by_maxSize {V : Type} (maxSize ttl : Nat) (hms : 1 ≤ maxSize)
    (ops : List (LRUCache.Op V)) :
    ((LRUCache.new V maxSize ttl).runOps ops).cache.length ≤ maxSize ∧
    ∀ (c : LRUCache V), keysOf c.cache ⊆ c.accessOrder → c.maxSize = maxSize →
      (LRUCache.evictLoop c.maxSize c.cache c.accessOrder).1.length < maxSize := by
  constructor
  · have hinv0 : LRUCache.Inv (LRUCache.new V maxSize ttl) := by
      refine ⟨?_, ?_, ?_⟩
      · simp [LRUCache.new, keysOf]
      · simp [LRUCache.new, keysOf, List.Subset.refl]
      · simp [LRUCache.new]
    have h := LRUCache.runOps_inv ops (LRUCache.new V maxSize ttl) hinv0 hms
    have hlen := h.1.2.2
    rw [h.2] at hlen
    exact hlen
  · intro c hsub hmsz
    subst hmsz
    exact LRUCache.evictLoop_length_lt c.maxSize hms c.accessOrder c.cache hsub

/-- Witness for the C4 theorem on a concrete operation sequence against a
capacity-2 cache. -/
theorem cache_size_bounded_by_maxSize_witness :
    ((LRUCache.new Nat 2 300000).runOps
        [.set 0 "a" 1 none, .set 1 "b" 2 none, .set 2 "c" 3 (some 50),
          .get 3 "b", .set 4 "d" 4 none, .invalidate (some (fun k => k == "c")),
          .get 100 "b", .invalidate none, .set 6 "e" 5 none]).cache.length ≤ 2 :=
  (cache_size_bounded_by_maxSize 2 300000 (by decide) _).1

/-- C5: for every attempt of at least 1 and every retryable error that is
not a rate-limit error (the only kind carrying a retry-after hint), the
computed delay equals the rounded sum of the pre-jitter delay
min(30000, 1000 times 2 to the attempt-minus-1) and a jitter between zero
and thirty percent of that delay inclusive; the pre-jitter delay is
non-decreasing in the attempt number and never exceeds 30000 ms. -/
theorem getRetryDelay_exponential_backoff_bounds (attempt : Nat) (e : GhostError)
    (rand : ℚ) (h1 : 1 ≤ attempt) (_h2 : ErrorHandler.isRetryable e = true)
    (h3 : e.kind ≠ ErrKind.rateLimit) (h4 : 0 ≤ rand) (h5 : rand < 1) :
    (∃ j : ℚ, 0 ≤ j ∧ j ≤ (3 / 10) * (ErrorHandler.getRetryDelayPre attempt : ℚ) ∧
        ErrorHandler.getRetryDelay attempt e rand
          = ErrorHandler.jsRound ((ErrorHandler.getRetryDelayPre attempt : ℚ) + j)) ∧
    (∀ b, attempt ≤ b → ErrorHandler.getRetryDelayPre attempt ≤ ErrorHandler.getRetryDelayPre b) ∧
    ErrorHandler.getRetryDelayPre attempt ≤ 30000 := by
  have hd : (0 : ℚ) ≤ (ErrorHandler.getRetryDelayPre attempt : ℚ) := Nat.cast_nonneg _
  refine ⟨⟨rand * (3 / 10) * (ErrorHandler.getRetryDelayPre attempt : ℚ), ?_, ?_, ?_⟩, ?_, ?_⟩
  · have h310 : (0 : ℚ) ≤ 3 / 10 := by norm_num
    exact mul_nonneg (mul_nonneg h4 h310) hd
  · have hstep : rand * (3 / 10) * (ErrorHandler.getRetryDelayPre attempt : ℚ)
        = rand * ((3 / 10) * (ErrorHandler.getRetryDelayPre attempt : ℚ)) := by ring
    rw [hstep]
    have h310d : (0 : ℚ) ≤ (3 / 10) * (ErrorHandler.getRetryDelayPre attempt : ℚ) := by
      have : (0 : ℚ) ≤ 3 / 10 := by norm_num
      exact mul_nonneg this hd
    calc rand * ((3 / 10) * (ErrorHandler.getRetryDelayPre attempt : ℚ))
        ≤ 1 * ((3 / 10) * (ErrorHandler.getRetryDelayPre attempt : ℚ)) :=
          mul_le_mul_of_nonneg_right h5.le h310d
      _ = (3 / 10) * (ErrorHandler.getRetryDelayPre attempt : ℚ) := one_mul _
  · simp only [ErrorHandler.getRetryDelay]
    rw [if_neg h3]
  · intro b hb
    unfold ErrorHandler.getRetryDelayPre
    refine min_le_min ?_ le_rfl
    exact Nat.mul_le_mul_left 1000 (Nat.pow_le_pow_right (by norm_num) (by omega))
  · exact min_le_right _ _

/-- Witness for the C5 theorem at attempt 3, an external-service error
and a random draw of one half. -/
theorem getRetryDelay_exponential_backoff_bounds_witness :
    ErrorHandler.getRetryDelayPre 3 ≤ 30000 :=
  (getRetryDelay_exponential_backoff_bounds 3 (ExternalServiceError "Ghost API" "boom")
    (1 / 2) (by decide) rfl (by decide) (by norm_num) (by norm_num)).2.2

/-- C6 counterexample: the access-order sequence does not list each live
key exactly once after a set whose key is already present — the second
set of key a appends a to the access order without removing the earlier
occurrence, so a single live key is listed twice. -/
theorem set_existing_key_duplicates_access_order :
    (((LRUCache.new Nat 2).set 0 "a" 1).set 0 "a" 2).accessOrder = ["a", "a"]
    ∧ keysOf (((LRUCache.new Nat 2).set 0 "a" 1).set 0 "a" 2).cache = ["a"]
    ∧ (((LRUCache.new Nat 2).set 0 "a" 1).set 0 "a" 2).accessOrder.count "a" ≠ 1 := by
  decide

/-- C6 (amended): every cache operation (get, set, invalidate) preserves
the access-order invariant the code actually maintains: every stored key
appears somewhere in the access-order sequence. The claimed stronger
invariant — exactly the live keys, each exactly once, most-recently-used
last — fails after a set whose key is already present, which leaves the
key listed twice (see the counterexample). -/
theorem cache_ops_preserve_live_keys_in_access_order {V : Type} (c : LRUCache V)
    (op : LRUCache.Op V) (hsub : keysOf c.cache ⊆ c.accessOrder) :
    keysOf (c.applyOp op).cache ⊆ (c.applyOp op).accessOrder :=
  LRUCache.subset_applyOp c op hsub

/-- Witness for the amended C6 theorem: after inserting key b into a
cache holding key a, key a is still listed in the access order. -/
theorem cache_ops_preserve_live_keys_in_access_order_witness :
    "a" ∈ (((LRUCache.new Nat 2).set 0 "a" 1).applyOp (.set 1 "b" 2 none)).accessOrder :=
  cache_ops_preserve_live_keys_in_access_order ((LRUCache.new Nat 2).set 0 "a" 1)
    (.set 1 "b" 2 none) (fun _ hx => hx) (by decide)

/-- C7 counterexample: a poll fetch already in flight when unsubscribe is
called still invokes the removed callback when its result arrives — the
poll function holds the captured subscription object and performs no
registration check after its await. Subscribing with polling starts an
immediate in-flight fetch; unsubscribing succeeds and clears the timer;
the later completion of that fetch nevertheless records an update
callback invocation for the removed subscription. -/
theorem inflight_poll_invokes_callback_after_unsubscribe :
    ((SubMgr.subscribe ({} : SubMgr Nat) "s1" "ghost/posts"
          { enablePolling := true, pollingInterval := some 10000 }).1.unsubscribe
        "s1").toOption.map (fun m2 => (m2.completeFetch 0 (.ok 42)).events)
      = some [("s1", PollEvent.update "ghost/posts" 42)] := by
  decide

/-- C7 (amended): after unsubscribe(id) succeeds, the subscription's poll
timer is cancelled and stays cancelled: the timer map no longer holds the
id, a tick for it is a no-op, and after any further sequence of ticks and
fetch completions the timer is still absent and a tick still a no-op — so
no new poll cycle for the removed subscription ever starts. The original
claim fails only for a fetch already in flight at unsubscribe time, whose
completion still invokes the removed callback (see the counterexample). -/
theorem unsubscribe_cancels_timer_permanently {V : Type} [DecidableEq V]
    (m m2 : SubMgr V) (id : String) (h : m.unsubscribe id = .ok m2) :
    mapGet m2.pollingIntervals id = none ∧ m2.tick id = m2 ∧
    ∀ steps : List (SubMgr.Step V),
      mapGet (m2.runSteps steps).pollingIntervals id = none ∧
      (m2.runSteps steps).tick id = m2.runSteps steps := by
  have hti : mapGet m2.pollingIntervals id = none := by
    unfold SubMgr.unsubscribe at h
    by_cases hmem : id ∈ m.registered
    · rw [if_pos hmem] at h
      injection h with h
      rw [← h]
      exact mapGet_mapDelete_self m.pollingIntervals id
    · rw [if_neg hmem] at h
      exact absurd h (by simp)
  refine ⟨hti, SubMgr.tick_no_timer m2 id hti, ?_⟩
  intro steps
  have hrs := SubMgr.runSteps_pollingIntervals steps m2
  refine ⟨by rw [hrs]; exact hti, ?_⟩
  exact SubMgr.tick_no_timer _ id (by rw [hrs]; exact hti)

/-- Witness for the amended C7 theorem on the concrete state left by
unsubscribing the one polling subscription. -/
theorem unsubscribe_cancels_timer_permanently_witness :
    SubMgr.tick (V := Nat)
        { objects := [("s1", { uri := "ghost/posts", lastValue := none })],
          registered := [], pollingIntervals := [], inFlight := ["s1"], events := [] } "s1"
      = { objects := [("s1", { uri := "ghost/posts", lastValue := none })],
          registered := [], pollingIntervals := [], inFlight := ["s1"], events := [] } :=
  (unsubscribe_cancels_timer_permanently
    { objects := [("s1", { uri := "ghost/posts", lastValue := none })],
      registered := ["s1"], pollingIntervals := [("s1", 10000)], inFlight := ["s1"],
      events := [] }
    { objects := [("s1", { uri := "ghost/posts", lastValue := none })],
      registered := [], pollingIntervals := [], inFlight := ["s1"], events := [] }
    "s1" rfl).2.1

/-- C8 counterexample: the subscribe path applies no 5000 ms floor to the
requested polling interval — a requested interval of 1000 ms is installed
verbatim as the recurring timer interval, where the claim demands an
effective interval of 5000 ms. -/
theorem polling_interval_has_no_floor :
    (SubMgr.subscribe ({} : SubMgr Nat) "s1" "ghost/posts"
        { enablePolling := true, pollingInterval := some 1000 }).1.pollingIntervals
      = [("s1", 1000)]
    ∧ (1000 : Nat) ≠ 5000 := by
  decide

/-- C8 (amended): when polling is enabled, the recurring timer installed
by subscribe uses exactly the requested pollingInterval when it is given
and non-zero, and the default 30000 ms otherwise; no lower floor is
applied. -/
theorem subscribe_uses_requested_interval_or_default {V : Type} (m : SubMgr V)
    (id uri : String) (opts : SubOptions) (h : opts.enablePolling = true) :
    mapGet (m.subscribe id uri opts).1.pollingIntervals id
      = some (jsOr opts.pollingInterval 30000) := by
  simp only [SubMgr.subscribe, h, if_true]
  exact mapGet_mapSet_self _ _ _

/-- Witness for the amended C8 theorem: with no interval requested the
installed timer interval is the default 30000 ms. -/
theorem subscribe_uses_requested_interval_or_default_witness :
    mapGet (SubMgr.subscribe ({} : SubMgr Nat) "s1" "ghost/posts"
        { enablePolling := true }).1.pollingIntervals "s1" = some 30000 :=
  subscribe_uses_requested_interval_or_default {} "s1" "ghost/posts"
    { enablePolling := true } rfl

/-- C9 counterexample: the collection fetch folds a status parameter into
the filter whenever it is truthy, with no special case for the value all:
with status all and an existing filter, the upstream filter option becomes
the conjunction featuring status:all instead of being left unchanged. -/
theorem fetchPosts_folds_status_all_into_filter :
    (ResourceFetcher.fetchPostsOptions
        { status := some "all", filter := some "featured:true" }).filter
      = some "featured:true+status:all"
    ∧ some "featured:true+status:all" ≠ some "featured:true" := by
  decide

/-- C9 (amended): a truthy status parameter — any non-empty value,
including all — is conjoined with an existing truthy filter using the
plus (logical AND) separator, or becomes the filter alone otherwise; the
remaining query parameters map to their options with defaults limit 15,
page 1, include tags-and-authors and order published_at descending. -/
theorem fetchPostsOptions_translation (q : PostsQuery) (s : String)
    (hs : q.status = some s) (hne : s ≠ "") :
    (ResourceFetcher.fetchPostsOptions q).filter
      = some (if jsTruthyStr q.filter then q.filter.getD "" ++ "+status:" ++ s
              else "status:" ++ s)
    ∧ (ResourceFetcher.fetchPostsOptions q).limit = jsOr q.limit 15
    ∧ (ResourceFetcher.fetchPostsOptions q).page = jsOr q.page 1
    ∧ (ResourceFetcher.fetchPostsOptions q).«include» = jsOrStr q.«include» "tags,authors"
    ∧ (ResourceFetcher.fetchPostsOptions q).order = jsOrStr q.order "published_at desc" := by
  unfold ResourceFetcher.fetchPostsOptions
  rw [hs]
  simp only [if_neg hne]
  simp

/-- Witness for the amended C9 theorem: status all with no other filter
becomes the filter status:all. -/
theorem fetchPostsOptions_translation_witness :
    (ResourceFetcher.fetchPostsOptions { status := some "all" }).filter = some "status:all" :=
  (fetchPostsOptions_translation { status := some "all" } "all" rfl (by decide)).1

/-- C10: unsubscribing an id that is not currently registered — in
particular an id already removed by a previous unsubscribe — throws a
NotFoundError carrying code NOT_FOUND, status 404 and a message naming
the subscription id; the thrown call returns no updated state, so the
registry and the timers are left as they were, and unsubscribing the same
id twice fails on the second call. -/
theorem unsubscribe_unknown_id_throws_not_found {V : Type} (m : SubMgr V) (id : String) :
    (id ∉ m.registered →
      m.unsubscribe id = .error (NotFoundError "Subscription" id)
      ∧ (NotFoundError "Subscription" id).code = "NOT_FOUND"
      ∧ (NotFoundError "Subscription" id).statusCode = 404
      ∧ (NotFoundError "Subscription" id).message = "Subscription not found: " ++ id)
    ∧ ∀ m2 : SubMgr V, m.unsubscribe id = .ok m2 →
        m2.unsubscribe id = .error (NotFoundError "Subscription" id) := by
  constructor
  · intro hnot
    refine ⟨?_, rfl, rfl, rfl⟩
    simp [SubMgr.unsubscribe, hnot]
  · intro m2 h
    by_cases hmem : id ∈ m.registered
    · unfold SubMgr.unsubscribe at h
      rw [if_pos hmem] at h
      injection h with h
      rw [← h]
      unfold SubMgr.unsubscribe
      rw [if_neg (fun hmem2 => (mem_removeKey.mp hmem2).2 rfl)]
    · unfold SubMgr.unsubscribe at h
      rw [if_neg hmem] at h
      exact absurd h (by simp)

/-- Witness for the C10 theorem on the empty subscription manager. -/
theorem unsubscribe_unknown_id_throws_not_found_witness :
    SubMgr.unsubscribe ({} : SubMgr Nat) "sub_1"
        = .error (NotFoundError "Subscription" "sub_1")
      ∧ (NotFoundError "Subscription" "sub_1").code = "NOT_FOUND"
      ∧ (NotFoundError "Subscription" "sub_1").statusCode = 404
      ∧ (NotFoundError "Subscription" "sub_1").message = "Subscription not found: sub_1" :=
  (unsubscribe_unknown_id_throws_not_found ({} : SubMgr Nat) "sub_1").1
    (List.not_mem_nil "sub_1")

end GhostMCP
